import Mathlib

/-!
Shallow embedding of the sentrix admission-control core
(src/security/antiDos.ts and src/security/csrf.ts) and proofs about it.

JavaScript `Map` objects are modelled as insertion-ordered association
lists keyed by `String`; `Map.set` on an existing key updates the value in
place (keeping its position), on a fresh key it appends at the end, exactly
as the ECMAScript `Map` does.
-/

namespace Sentrix

/-- A JavaScript `Map<string, V>`: insertion-ordered association list. -/
abbrev JsMap (V : Type) := List (String × V)

/-- `Map.prototype.get`. -/
def mapGet {V : Type} : JsMap V → String → Option V
  | [], _ => none
  | (k', v) :: rest, k => if k' = k then some v else mapGet rest k

/-- `Map.prototype.delete` (removes the entry for the key, if any). -/
def mapDelete {V : Type} (m : JsMap V) (k : String) : JsMap V :=
  m.filter (fun p => p.1 ≠ k)

/-- `Map.prototype.has`. -/
def mapHas {V : Type} (m : JsMap V) (k : String) : Bool :=
  (mapGet m k).isSome

/-- `Map.prototype.set`: update in place when the key exists, else append. -/
def mapSet {V : Type} : JsMap V → String → V → JsMap V
  | [], k, v => [(k, v)]
  | (k', v') :: rest, k, v =>
    if k' = k then (k', v) :: rest else (k', v') :: mapSet rest k v

/--
The `LRUCache` class of src/security/antiDos.ts: a bounded map whose
entries are kept in recency order (oldest first).
-/
structure LRUCache (V : Type) where
  cache : JsMap V
  maxSize : Nat
deriving DecidableEq

/-- `new LRUCache(maxSize)`. -/
def LRUCache.empty {V : Type} (maxSize : Nat) : LRUCache V :=
  ⟨[], maxSize⟩

/-- The keys currently held, oldest first. -/
def LRUCache.keys {V : Type} (c : LRUCache V) : List String :=
  c.cache.map Prod.fst

/--
`LRUCache.get`: on a hit the entry is deleted and re-inserted at the end
(most recently used).  Returns the value together with the updated cache.
-/
def LRUCache.get {V : Type} (c : LRUCache V) (k : String) :
    Option V × LRUCache V :=
  match mapGet c.cache k with
  | some v => (some v, ⟨mapSet (mapDelete c.cache k) k v, c.maxSize⟩)
  | none => (none, c)

/--
`LRUCache.set`: an existing key is deleted and re-appended; otherwise, at
capacity, the oldest key is evicted — but only when that key is truthy
(`if (firstKey)`), so an empty-string key is never evicted.  The second
component reports the evicted key, if any.
-/
def LRUCache.set {V : Type} (c : LRUCache V) (k : String) (v : V) :
    LRUCache V × Option String :=
  if mapHas c.cache k then
    (⟨mapSet (mapDelete c.cache k) k v, c.maxSize⟩, none)
  else if c.cache.length ≥ c.maxSize then
    match c.cache.head? with
    | some (k0, _) =>
      if k0 ≠ "" then
        (⟨mapSet (mapDelete c.cache k0) k v, c.maxSize⟩, some k0)
      else
        (⟨mapSet c.cache k v, c.maxSize⟩, none)
    | none => (⟨mapSet c.cache k v, c.maxSize⟩, none)
  else
    (⟨mapSet c.cache k v, c.maxSize⟩, none)

/--
Run a sequence of `set` calls (each with value `0`), collecting the
eviction events in order.
-/
def runSetTrace (c : LRUCache Nat) : List String → LRUCache Nat × List String
  | [] => (c, [])
  | k :: ks =>
    let (c', ev) := c.set k 0
    let (c'', evs) := runSetTrace c' ks
    (c'', ev.toList ++ evs)

/-! ## Rate limiter (src/security/antiDos.ts, `antiDoS`) -/

/-- The per-client record of the local backend. -/
structure MemoryClientInfo where
  attempts : List Int
  firstSeen : Int
deriving DecidableEq

/-- `Math.ceil(windowMs / 1000)` for a natural `windowMs`. -/
def ceilSeconds (windowMs : Nat) : Nat :=
  (windowMs + 999) / 1000

/-- Result of the in-memory rate-limit check. -/
structure LocalCheckResult where
  state : LRUCache MemoryClientInfo
  allowed : Bool
  currentCount : Nat
deriving DecidableEq

/--
The memory branch of `antiDoS` (lines 158-188): look the client up in the
LRU cache (creating a fresh record if absent), drop timestamps `t` with
`now - t >= windowMs`, push `now`, store the record back, and deny when
the resulting count exceeds `maxRequests`.
-/
def localCheck (st : LRUCache MemoryClientInfo) (now : Int) (ip : String)
    (maxRequests : Nat) (windowMs : Int) : LocalCheckResult :=
  let got := st.get ip
  let client := got.1.getD ⟨[], now⟩
  let attempts := client.attempts.filter (fun t => now - t < windowMs) ++ [now]
  let st2 := (got.2.set ip ⟨attempts, client.firstSeen⟩).1
  ⟨st2, attempts.length ≤ maxRequests, attempts.length⟩

/-- Run a sequence of local checks for one client, listing each decision. -/
def runLocalChecks (st : LRUCache MemoryClientInfo) (ip : String)
    (maxRequests : Nat) (windowMs : Int) :
    List Int → LRUCache MemoryClientInfo × List Bool
  | [] => (st, [])
  | t :: ts =>
    let r := localCheck st t ip maxRequests windowMs
    let rest := runLocalChecks r.state ip maxRequests windowMs ts
    (rest.1, r.allowed :: rest.2)

/-- What the `antiDoS` middleware does with one request. -/
inductive DosOutcome
  | identityUnresolved
  | payloadTooLarge (retryAfter : Nat)
  | rateLimited (retryAfter : Nat)
  | admitted (limitHeader : Nat) (windowHeader : Nat)
deriving DecidableEq

/-- The request fields `antiDoS` inspects. -/
structure DosRequest where
  ip : Option String
  contentLength : Option Nat
deriving DecidableEq

/-- JavaScript truthiness of `extractClientIP`'s result (`if (!ip)`). -/
def truthyIp : Option String → Bool
  | some s => s ≠ ""
  | none => false

/-- `contentLength && Number(contentLength) > maxPayloadSize`. -/
def oversized (contentLength : Option Nat) (maxPayloadSize : Nat) : Bool :=
  match contentLength with
  | some n => maxPayloadSize < n
  | none => false

/--
`antiDoS` on the in-memory backend: IP check, then payload-size check
(both before any rate-limit state is touched), then the sliding-window
check; an over-limit result still keeps the appended timestamp.
-/
def antiDoSLocal (maxRequests windowMs maxPayloadSize : Nat)
    (req : DosRequest) (now : Int) (st : LRUCache MemoryClientInfo) :
    LRUCache MemoryClientInfo × DosOutcome :=
  if ¬ truthyIp req.ip then (st, .identityUnresolved)
  else if oversized req.contentLength maxPayloadSize then
    (st, .payloadTooLarge (ceilSeconds windowMs))
  else
    let r := localCheck st now (req.ip.getD "") maxRequests windowMs
    if r.allowed then (r.state, .admitted maxRequests (ceilSeconds windowMs))
    else (r.state, .rateLimited (ceilSeconds windowMs))

/--
`antiDoS` on the Redis backend, for one client key: the state is the
post-`INCR` counter; `current > maxRequests` denies.  The IP and payload
checks are shared with the memory path.
-/
def antiDoSRedis (maxRequests windowMs maxPayloadSize : Nat)
    (req : DosRequest) (counter : Nat) : Nat × DosOutcome :=
  if ¬ truthyIp req.ip then (counter, .identityUnresolved)
  else if oversized req.contentLength maxPayloadSize then
    (counter, .payloadTooLarge (ceilSeconds windowMs))
  else
    let current := counter + 1
    if maxRequests < current then (current, .rateLimited (ceilSeconds windowMs))
    else (current, .admitted maxRequests (ceilSeconds windowMs))

/-! ## CSRF token lifecycle (src/security/csrf.ts) -/

/--
A JavaScript string as a list of code points.  Incoming header values are
latin1-decoded by Node, so each element is below `0x100`, but the model
does not need that bound except where stated.
-/
abbrev JsString := List Nat

/-- UTF-8 encoding of one code point below `0x10000` (`Buffer.from`). -/
def utf8Bytes (c : Nat) : List Nat :=
  if c < 0x80 then [c]
  else if c < 0x800 then [0xC0 + c / 64, 0x80 + c % 64]
  else [0xE0 + c / 4096, 0x80 + c / 64 % 64, 0x80 + c % 64]

/-- `Buffer.from(s)`: the UTF-8 bytes of the string. -/
def utf8Encode (s : JsString) : List Nat :=
  (s.map utf8Bytes).flatten

/-- Outcome of `crypto.timingSafeEqual` on two buffers. -/
inductive CmpResult
  | ok (eq : Bool)
  | rangeError
deriving DecidableEq

/--
`crypto.timingSafeEqual`: throws a `RangeError` when the byte lengths
differ, otherwise reports whether the buffers are byte-for-byte equal
(the XOR-accumulation visits every byte, but its boolean result is plain
equality, which is all the model keeps).
-/
def timingSafeEqual (a b : List Nat) : CmpResult :=
  if a.length = b.length then .ok (a == b) else .rangeError

/-- `TOKEN_EXPIRY * 1000`: token lifetime in milliseconds. -/
def tokenExpiryMs : Int := 3600 * 1000

/-- One entry of the in-memory token map. -/
structure TokenEntry where
  token : JsString
  expiresAt : Int
deriving DecidableEq

/-- `memoryTokens`: sessionId keyed map of tokens. -/
abbrev TokenMap := JsMap TokenEntry

/-- `storeToken` on the in-memory store (lines 72-81). -/
def storeTokenMem (m : TokenMap) (sessionId : String) (token : JsString)
    (now : Int) : TokenMap :=
  mapSet m sessionId ⟨token, now + tokenExpiryMs⟩

/-- `getToken` on the in-memory store (lines 86-96). -/
def getTokenMem (m : TokenMap) (sessionId : String) (now : Int) :
    Option JsString :=
  match mapGet m sessionId with
  | some e => if now < e.expiresAt then some e.token else none
  | none => none

/--
`generateCsrfMiddleware` for a request that already carries session
cookie `sessionId`: store the freshly generated `token` (the random draw
is a parameter of the model) and return it alongside the updated store.
-/
def generateCsrf (m : TokenMap) (sessionId : String) (token : JsString)
    (now : Int) : TokenMap × JsString :=
  (storeTokenMem m sessionId token now, token)

/-- How `csrfProtection` disposes of one request. -/
inductive CsrfOutcome
  | ok
  | missingSession
  | invalidTokenFormat
  | tokenNotFound
  | tokenMismatch
  | internalRangeError
deriving DecidableEq

/-- The request fields `csrfProtection` inspects. -/
structure CsrfRequest where
  method : String
  sessionCookie : Option String
  headerToken : Option JsString
deriving DecidableEq

/-- Outcome plus the number of token-store lookups performed. -/
structure CsrfResult where
  outcome : CsrfOutcome
  lookups : Nat
deriving DecidableEq

/-- The methods `csrfProtection` skips entirely. -/
def safeMethods : List String := ["GET", "HEAD", "OPTIONS"]

/--
`csrfProtection` (lines 142-190) over the in-memory store: safe methods
pass untouched; a falsy session cookie rejects; an absent or non-64-char
token rejects before any lookup; then the stored token is fetched and
compared byte-wise, where differing UTF-8 byte lengths make the
comparison throw.  The store itself is never written.
-/
def csrfProtection (req : CsrfRequest) (now : Int) (store : TokenMap) :
    CsrfResult :=
  if safeMethods.contains req.method then ⟨.ok, 0⟩
  else
    match req.sessionCookie with
    | none => ⟨.missingSession, 0⟩
    | some sid =>
      if sid = "" then ⟨.missingSession, 0⟩
      else
        match req.headerToken with
        | none => ⟨.invalidTokenFormat, 0⟩
        | some tok =>
          if tok.length ≠ 64 then ⟨.invalidTokenFormat, 0⟩
          else
            match getTokenMem store sid now with
            | none => ⟨.tokenNotFound, 1⟩
            | some stored =>
              match timingSafeEqual (utf8Encode tok) (utf8Encode stored) with
              | .rangeError => ⟨.internalRangeError, 1⟩
              | .ok true => ⟨.ok, 1⟩
              | .ok false => ⟨.tokenMismatch, 1⟩

/-! ## Helper lemmas about the map and cache operations -/

theorem mapGet_mapSet_self {V : Type} (m : JsMap V) (k : String) (v : V) :
    mapGet (mapSet m k v) k = some v := by
  induction m with
  | nil => simp [mapSet, mapGet]
  | cons p rest ih =>
    obtain ⟨k', v'⟩ := p
    by_cases h : k' = k
    · simp [mapSet, mapGet, h]
    · simp [mapSet, mapGet, h, ih]

theorem mapGet_set_cache_self {V : Type} (c : LRUCache V) (k : String) (v : V) :
    mapGet ((c.set k v).1).cache k = some v := by
  unfold LRUCache.set
  repeat' split
  all_goals simp [mapGet_mapSet_self]

theorem mapSet_map_fst {V : Type} (m : JsMap V) (k : String) (v : V) :
    (mapSet m k v).map Prod.fst
      = if mapHas m k then m.map Prod.fst else m.map Prod.fst ++ [k] := by
  induction m with
  | nil => simp [mapSet, mapHas, mapGet]
  | cons p rest ih =>
    obtain ⟨k', v'⟩ := p
    by_cases h : k' = k
    · simp [mapSet, mapHas, mapGet, h]
    · simp only [mapSet, mapHas, mapGet, h, if_neg, if_false, List.map_cons, ih]
      simp only [mapHas] at ih ⊢
      split <;> simp

theorem mem_map_fst_iff_mapHas {V : Type} (m : JsMap V) (k : String) :
    k ∈ m.map Prod.fst ↔ mapHas m k = true := by
  induction m with
  | nil => simp [mapHas, mapGet]
  | cons p rest ih =>
    obtain ⟨k', v'⟩ := p
    by_cases h : k' = k
    · simp [mapHas, mapGet, h]
    · simp [mapHas, mapGet, h, ih, Ne.symm h]

theorem count_mapSet_self {V : Type} (m : JsMap V) (k : String) (v : V)
    (hd : (m.map Prod.fst).Nodup) :
    List.count k ((mapSet m k v).map Prod.fst) = 1 := by
  rw [mapSet_map_fst]
  by_cases h : mapHas m k
  · rw [if_pos h]
    exact List.count_eq_one_of_mem hd ((mem_map_fst_iff_mapHas m k).2 h)
  · rw [if_neg h]
    have hnot : k ∉ m.map Prod.fst := fun hm =>
      h ((mem_map_fst_iff_mapHas m k).1 hm)
    simp [List.count_append, List.count_eq_zero_of_not_mem hnot]

/-! ## Claim theorems -/

/-- The capacity-1 cache after `set("", 0)` then `set("a", 0)`. -/
def c2Cache : LRUCache Nat :=
  (((LRUCache.empty 1).set "" 0).1.set "a" 0).1

/--
C2: the claimed capacity invariant fails on the code.  In a capacity-1
`LRUCache`, storing the key `""` and then the key `"a"` leaves both keys
in the cache: the eviction guard `if (firstKey)` skips eviction because
the least-recently-used key `""` is falsy.
-/
theorem c2_capacity_violation :
    c2Cache.maxSize = 1 ∧ c2Cache.keys = ["", "a"] ∧ c2Cache.keys.length = 2 := by
  decide

/-- The capacity-2 trace for claim C6: set A, B, C, then A again, then D. -/
def c6Run : LRUCache Nat × List String :=
  runSetTrace (LRUCache.empty 2) ["A", "B", "C", "A", "D"]

/--
C6: inserting A, B, C into a capacity-2 cache, touching A again (a `set`
counts as a touch), then inserting D, leaves exactly the keys A and D;
of the keys that end up outside the cache, B is evicted before C.
-/
theorem c6_lru_scenario :
    c6Run.1.keys = ["A", "D"]
    ∧ c6Run.2.filter (fun k => !(c6Run.1.keys.contains k)) = ["B", "C"] := by
  decide

/--
C5: an oversized declared payload is rejected with `PayloadTooLarge`
carrying the `Retry-After` hint, and the rate-limit state (local attempt
timestamps, shared counter) is returned unchanged — the rejection
consumes no rate-limit slot, whatever the current counts are.
-/
theorem c5_payload_guard (maxRequests windowMs maxPayloadSize : Nat)
    (ip : String) (n : Nat) (now : Int) (st : LRUCache MemoryClientInfo)
    (counter : Nat) (hip : ip ≠ "") (hn : maxPayloadSize < n) :
    antiDoSLocal maxRequests windowMs maxPayloadSize ⟨some ip, some n⟩ now st
      = (st, .payloadTooLarge (ceilSeconds windowMs))
    ∧ antiDoSRedis maxRequests windowMs maxPayloadSize ⟨some ip, some n⟩ counter
      = (counter, .payloadTooLarge (ceilSeconds windowMs)) := by
  constructor <;> simp [antiDoSLocal, antiDoSRedis, truthyIp, oversized, hip, hn]

theorem c5_payload_guard_witness :
    antiDoSLocal 3 1000 10 ⟨some "a", some 11⟩ 0 (LRUCache.empty 5)
      = (LRUCache.empty 5, DosOutcome.payloadTooLarge (ceilSeconds 1000)) :=
  (c5_payload_guard 3 1000 10 "a" 11 0 (LRUCache.empty 5) 0 (by decide)
    (by decide)).1

/--
C8: whenever `antiDoS` rejects with `RateLimitExceeded`, on the memory
backend or on the Redis backend, the attached `Retry-After` value is
`ceil(windowMs / 1000)` seconds.
-/
theorem c8_retry_after (maxRequests windowMs maxPayloadSize : Nat)
    (req : DosRequest) (now : Int) (st : LRUCache MemoryClientInfo)
    (counter r : Nat) :
    ((antiDoSLocal maxRequests windowMs maxPayloadSize req now st).2
        = .rateLimited r → r = ceilSeconds windowMs)
    ∧ ((antiDoSRedis maxRequests windowMs maxPayloadSize req counter).2
        = .rateLimited r → r = ceilSeconds windowMs) := by
  refine ⟨fun h => ?_, fun h => ?_⟩
  · unfold antiDoSLocal at h
    simp only [] at h
    repeat' split at h
    all_goals simp_all
  · unfold antiDoSRedis at h
    simp only [] at h
    repeat' split at h
    all_goals simp_all

theorem c8_retry_after_witness : (1 : Nat) = ceilSeconds 1000 :=
  (c8_retry_after 0 1000 100 ⟨some "a", none⟩ 0 (LRUCache.empty 10) 0 1).1
    (by decide)

/--
C9: a GET, HEAD or OPTIONS request is accepted by `csrfProtection`
whatever the session cookie, submitted token and token store hold, and
no token-store lookup is performed.
-/
theorem c9_safe_method_bypass (req : CsrfRequest) (now : Int)
    (store : TokenMap) (h : safeMethods.contains req.method = true) :
    csrfProtection req now store = ⟨.ok, 0⟩ := by
  unfold csrfProtection
  rw [if_pos h]

theorem c9_safe_method_bypass_witness :
    csrfProtection ⟨"GET", none, none⟩ 0 [] = ⟨CsrfOutcome.ok, 0⟩ :=
  c9_safe_method_bypass ⟨"GET", none, none⟩ 0 [] (by decide)

/--
C10: the in-memory `getToken` returns the stored token exactly when an
entry exists for the session and its `expiresAt` is strictly greater
than the current time; an entry whose `expiresAt` equals the current
instant is reported absent.
-/
theorem c10_get_token_expiry (m : TokenMap) (sid : String) (now : Int) :
    (∀ tk, getTokenMem m sid now = some tk
        ↔ ∃ e, mapGet m sid = some e ∧ e.token = tk ∧ now < e.expiresAt)
    ∧ ∀ e, mapGet m sid = some e → e.expiresAt = now →
        getTokenMem m sid now = none := by
  constructor
  · intro tk
    cases h : mapGet m sid with
    | none => simp [getTokenMem, h]
    | some e =>
      by_cases hlt : now < e.expiresAt
      · simp [getTokenMem, h, hlt, eq_comm]
      · simp [getTokenMem, h, hlt]
  · intro e h he
    simp [getTokenMem, h, he]

theorem c10_get_token_expiry_witness :
    getTokenMem [("s", ⟨[1], 5⟩)] "s" 5 = none :=
  (c10_get_token_expiry [("s", ⟨[1], 5⟩)] "s" 5).2 ⟨[1], 5⟩ (by decide)
    (by decide)

/-- The attempt timestamps stored for `ip`, empty when the client is new. -/
def storedAttempts (st : LRUCache MemoryClientInfo) (ip : String) :
    List Int :=
  ((mapGet st.cache ip).map MemoryClientInfo.attempts).getD []

/--
C1: every local-backend check drops the stored timestamps `t` with
`now - t >= windowMs`, appends `now`, stores the result back, and allows
exactly when the resulting count is at most the limit; with limit 3 and
window 1000 ms, checks at times 0, 0, 0, 0, 1001 decide allow, allow,
allow, deny, allow.
-/
theorem c1_local_sliding_window :
    (∀ (st : LRUCache MemoryClientInfo) (now : Int) (ip : String)
        (maxRequests : Nat) (windowMs : Int),
      ∃ fs,
        mapGet (localCheck st now ip maxRequests windowMs).state.cache ip
          = some ⟨(storedAttempts st ip).filter (fun t => now - t < windowMs)
              ++ [now], fs⟩
        ∧ (localCheck st now ip maxRequests windowMs).currentCount
          = ((storedAttempts st ip).filter
              (fun t => now - t < windowMs)).length + 1
        ∧ (localCheck st now ip maxRequests windowMs).allowed
          = decide (((storedAttempts st ip).filter
              (fun t => now - t < windowMs)).length + 1 ≤ maxRequests))
    ∧ (runLocalChecks (LRUCache.empty 10000) "1.2.3.4" 3 1000
        [0, 0, 0, 0, 1001]).2 = [true, true, true, false, true] := by
  constructor
  · intro st now ip maxRequests windowMs
    cases h : mapGet st.cache ip with
    | none =>
      refine ⟨now, ?_, ?_, ?_⟩ <;>
        simp [localCheck, LRUCache.get, storedAttempts, h,
          mapGet_set_cache_self]
    | some c =>
      refine ⟨c.firstSeen, ?_, ?_, ?_⟩ <;>
        simp [localCheck, LRUCache.get, storedAttempts, h,
          mapGet_set_cache_self]
  · decide

/--
C3: issuing a token and replaying it with the matching session cookie on
a state-changing request is accepted, and stays accepted at any instant
before the TTL elapses — validation never writes the store, so repeated
submissions see the same state; re-issuing overwrites the stored entry,
and the store holds exactly one entry for the session.
-/
theorem c3_csrf_round_trip (store : TokenMap) (sid m : String)
    (tk tk2 : JsString) (now0 now1 now2 : Int)
    (hnodup : (store.map Prod.fst).Nodup) (hsid : sid ≠ "")
    (hm : m ∉ safeMethods) (hlen : tk.length = 64)
    (hfresh : now1 < now0 + tokenExpiryMs) :
    csrfProtection ⟨m, some sid, some tk⟩ now1
        (generateCsrf store sid tk now0).1 = ⟨.ok, 1⟩
    ∧ List.count sid (((generateCsrf store sid tk now0).1).map Prod.fst) = 1
    ∧ mapGet (generateCsrf (generateCsrf store sid tk now0).1 sid tk2 now2).1
        sid = some ⟨tk2, now2 + tokenExpiryMs⟩ := by
  refine ⟨?_, ?_, ?_⟩
  · have hget : getTokenMem (generateCsrf store sid tk now0).1 sid now1
        = some tk := by
      simp [generateCsrf, storeTokenMem, getTokenMem, mapGet_mapSet_self,
        hfresh]
    simp [csrfProtection, hm, hsid, hlen, hget, timingSafeEqual]
  · exact count_mapSet_self store sid (TokenEntry.mk tk (now0 + tokenExpiryMs)) hnodup
  · exact mapGet_mapSet_self (generateCsrf store sid tk now0).1 sid
      (TokenEntry.mk tk2 (now2 + tokenExpiryMs))

theorem c3_csrf_round_trip_witness :
    csrfProtection ⟨"POST", some "s", some (List.replicate 64 97)⟩ 5
        (generateCsrf [] "s" (List.replicate 64 97) 0).1
      = ⟨CsrfOutcome.ok, 1⟩ :=
  (c3_csrf_round_trip [] "s" "POST" (List.replicate 64 97)
    (List.replicate 64 98) 0 5 10 (by decide) (by decide) (by decide)
    (by decide) (by decide)).1

/-- The token store holding a 64-character ASCII token for session "s". -/
def c4Store : TokenMap := [("s", ⟨List.replicate 64 97, 100⟩)]

/-- A 64-character token whose UTF-8 encoding is 128 bytes long. -/
def c4Submitted : JsString := List.replicate 64 233

set_option maxRecDepth 10000 in
/--
C4 counterexample: a 64-character submitted token made of non-ASCII
code points, with a stored token present, drives `timingSafeEqual` into
its differing-byte-length throw: the request neither passes nor fails
with the typed token-mismatch rejection, so a third outcome does occur.
-/
theorem c4_counterexample :
    c4Submitted.length = 64
    ∧ getTokenMem c4Store "s" 0 = some (List.replicate 64 97)
    ∧ csrfProtection ⟨"POST", some "s", some c4Submitted⟩ 0 c4Store
        = ⟨.internalRangeError, 1⟩
    ∧ CsrfOutcome.internalRangeError ≠ .ok
    ∧ CsrfOutcome.internalRangeError ≠ .tokenMismatch := by
  decide

/--
C4 (amended): for a 64-character submitted token whose UTF-8 byte length
equals the stored token's, the comparison completes and the request is
accepted exactly when the byte sequences agree, else rejected with the
typed token-mismatch failure; tokens of differing byte length instead
make the comparison throw.
-/
theorem c4_amended_comparison (m sid : String) (tok stored : JsString)
    (store : TokenMap) (now : Int)
    (hm : m ∉ safeMethods) (hsid : sid ≠ "")
    (hlen : tok.length = 64)
    (hstored : getTokenMem store sid now = some stored)
    (hbytes : (utf8Encode tok).length = (utf8Encode stored).length) :
    csrfProtection ⟨m, some sid, some tok⟩ now store
      = ⟨if utf8Encode tok == utf8Encode stored then .ok
          else .tokenMismatch, 1⟩ := by
  cases hb : utf8Encode tok == utf8Encode stored <;>
    simp [csrfProtection, hm, hsid, hlen, hstored, timingSafeEqual, hbytes,
      hb]

theorem c4_amended_comparison_witness :
    csrfProtection ⟨"PUT", some "s", some (List.replicate 64 97)⟩ 0
        [("s", ⟨List.replicate 64 97, 50⟩)] = ⟨CsrfOutcome.ok, 1⟩ := by
  have h := c4_amended_comparison "PUT" "s" (List.replicate 64 97)
    (List.replicate 64 97) [("s", ⟨List.replicate 64 97, 50⟩)] 0
    (by decide) (by decide) (by decide) (by decide) rfl
  simpa using h

/--
C7: with a session cookie present on an unsafe-method request, an absent
or non-64-character token is rejected as malformed with zero token-store
lookups; a 64-character token of the wrong value is rejected as a
mismatch after exactly one lookup.
-/
theorem c7_rejection_order :
    (∀ (m sid : String) (tokOpt : Option JsString) (store : TokenMap)
        (now : Int),
      m ∉ safeMethods → sid ≠ "" →
      (∀ t, tokOpt = some t → t.length ≠ 64) →
      csrfProtection ⟨m, some sid, tokOpt⟩ now store
        = ⟨.invalidTokenFormat, 0⟩)
    ∧ (∀ (m sid : String) (tok stored : JsString) (store : TokenMap)
        (now : Int),
      m ∉ safeMethods → sid ≠ "" → tok.length = 64 →
      getTokenMem store sid now = some stored →
      (utf8Encode tok).length = (utf8Encode stored).length →
      utf8Encode tok ≠ utf8Encode stored →
      csrfProtection ⟨m, some sid, some tok⟩ now store
        = ⟨.tokenMismatch, 1⟩) := by
  constructor
  · intro m sid tokOpt store now hm hsid htok
    cases tokOpt with
    | none => simp [csrfProtection, hm, hsid]
    | some t => simp [csrfProtection, hm, hsid, htok t rfl]
  · intro m sid tok stored store now hm hsid hlen hstored hbytes hne
    cases hb : utf8Encode tok == utf8Encode stored
    · simp [csrfProtection, hm, hsid, hlen, hstored, timingSafeEqual,
        hbytes, hb]
    · exact absurd (by simpa using hb) hne

theorem c7_rejection_order_witness :
    csrfProtection ⟨"DELETE", some "s", some (List.replicate 64 98)⟩ 0
        [("s", ⟨List.replicate 64 97, 10⟩)]
      = ⟨CsrfOutcome.tokenMismatch, 1⟩ :=
  c7_rejection_order.2 "DELETE" "s" (List.replicate 64 98)
    (List.replicate 64 97) [("s", ⟨List.replicate 64 97, 10⟩)] 0
    (by decide) (by decide) (by decide) (by decide) (by decide) (by decide)

end Sentrix
